import Mathlib

/-!
Shallow embedding of the suika cooperative executor core:
`src/crates/suika_server/src/async/task.rs` (Task, WakerImpl),
`src/crates/suika_server/src/async/delay.rs` (Delay future),
`src/crates/core_async/src/executor.rs` (SimpleAsync).

Modelling conventions:
- `Instant` and `Duration` are natural numbers (monotone wall-clock ticks).
- A Rust panic (an `unwrap` on an `Err`, or an explicit `panic!`) is the
  `none` value of an `Option` result; a function with no panic path is total.
- The mpsc ready queue is a FIFO list of task ids together with a
  `consumerAlive` flag (the `Receiver` has not been dropped; `send` fails
  exactly when it is dead) and a `producersAlive` flag (at least one
  `Sender` is still alive; `try_recv` reports `Disconnected` exactly when
  the queue is empty and all senders are gone).
- Mutex locks are elided: the claims are about the sequential semantics of
  each operation, and every lock in the source is acquired and released
  inside a single operation.
-/

namespace Suika

/-- Result of polling a future: `std::task::Poll` specialised to `Output = ()`. -/
inductive PollRes where
  | Ready : PollRes
  | Pending : PollRes
deriving DecidableEq, Repr

/-- A wake handle identity; `will_wake` compares identities. -/
abbrev Waker := Nat

/-- A suspendable computation (a `Future<Output = ()>`): each poll either
completes (`done`) or suspends and advances to the rest (`pend rest`). -/
inductive Computation where
  | done : Computation
  | pend : Computation → Computation
deriving DecidableEq, Repr

/-- The task wrapper from `task.rs`: the boxed future behind its mutex and
the `completed: Mutex<bool>` flag.  The `executor: Sender<Arc<Task>>` and
`active_tasks: Arc<Mutex<usize>>` back-references are fields of the shared
`ExecState` below, since every task of one executor aliases the same pair. -/
structure Task where
  future : Computation
  completed : Bool
deriving DecidableEq, Repr

/-- Shared state of one `SimpleAsync` executor together with its task arena.
Tasks are identified by their position in `tasks` (spawn order); the ready
queue holds task ids in FIFO order.  `stopMsgs` is the number of messages
sitting in the stop channel; `activeTasks` is the `usize` behind
`active_tasks`. -/
structure ExecState where
  tasks : List Task
  queue : List Nat
  activeTasks : Nat
  consumerAlive : Bool
  producersAlive : Bool
  stopMsgs : Nat
deriving DecidableEq, Repr

/-- `SimpleAsync::new()`: empty queue, counter 0, both channel ends alive. -/
def ExecState.init : ExecState :=
  { tasks := [], queue := [], activeTasks := 0,
    consumerAlive := true, producersAlive := true, stopMsgs := 0 }

/-- `Task::spawn(future, sender, active_tasks)`: allocates the task with
`completed = false` and does `sender.send(task).unwrap()`.  If the queue
consumer has been dropped the `send` returns `Err` and the `unwrap`
panics (`none`); otherwise the single side effect is the initial enqueue
of the fresh task id. -/
def taskSpawn (c : Computation) (s : ExecState) : Option ExecState :=
  let tid := s.tasks.length
  let s1 := { s with tasks := s.tasks ++ [({ future := c, completed := false } : Task)] }
  if s1.consumerAlive then
    some { s1 with queue := s1.queue ++ [tid] }
  else
    none

/-- `Task::poll(self)` from `task.rs`.  Locks `completed`; if already set it
returns at once (the early `return;` — no panic, no other effect).
Otherwise it polls the wrapped future: on `Ready` it decrements the active
counter and sets the flag (in that order; the queue is untouched); on
`Pending` it re-sends itself on the executor channel, discarding any send
error (`let _ = self.executor.send(..)`).  An unknown task id leaves the
state unchanged (unreachable from traces, where the queue only ever holds
ids of spawned tasks). -/
def taskPoll (s : ExecState) (tid : Nat) : ExecState :=
  match s.tasks.get? tid with
  | none => s
  | some t =>
    if t.completed then
      s
    else
      match t.future with
      | Computation.done =>
          { s with tasks := s.tasks.set tid { t with completed := true },
                   activeTasks := s.activeTasks - 1 }
      | Computation.pend rest =>
          let s1 := { s with tasks := s.tasks.set tid { t with future := rest } }
          if s1.consumerAlive then
            { s1 with queue := s1.queue ++ [tid] }
          else
            s1

/-- `WakerImpl::wake`: `let _ = self.task.executor.send(self.task.clone())` —
re-enqueues the bound task if the consumer is alive, silently drops the
send error otherwise.  It never inspects the task's completion flag. -/
def wakerWake (s : ExecState) (tid : Nat) : ExecState :=
  if s.consumerAlive then { s with queue := s.queue ++ [tid] } else s

/-- `SimpleAsync::spawn`: increments the active counter, then delegates to
`Task::spawn`. -/
def execSpawn (s : ExecState) (c : Computation) : Option ExecState :=
  taskSpawn c { s with activeTasks := s.activeTasks + 1 }

/-- `SimpleAsync::stop`: `let _ = self.stop_sender.send(())` — one more
message in the stop channel, never an error. -/
def execStop (s : ExecState) : ExecState :=
  { s with stopMsgs := s.stopMsgs + 1 }

/-- How one `run` loop iteration ended, when the loop exits. -/
inductive RunExit where
  | stopped : RunExit
  | disconnected : RunExit
deriving DecidableEq, Repr

/-- `SimpleAsync::run`, fuel-bounded.  Each iteration: (1) `try_recv` on the
stop channel — a pending message breaks the loop (consuming the message);
(2) `try_recv` on the ready queue — `Ok(task)` polls it, `Empty` yields and
retries, `Disconnected` (empty queue and every producer dropped) breaks.
Returns the exit branch, the final state and the number of task polls
performed, or `none` if the loop is still running when fuel runs out. -/
def runLoop : Nat → ExecState → Option (RunExit × ExecState × Nat)
  | 0, _ => none
  | fuel + 1, s =>
    if s.stopMsgs > 0 then
      some (RunExit.stopped, { s with stopMsgs := s.stopMsgs - 1 }, 0)
    else
      match s.queue with
      | tid :: rest =>
          (runLoop fuel (taskPoll { s with queue := rest } tid)).map
            (fun r => (r.1, r.2.1, r.2.2 + 1))
      | [] =>
          if s.producersAlive then
            runLoop fuel s
          else
            some (RunExit.disconnected, s, 0)

/-- Externally triggered operations on the executor state, used to build
arbitrary interleavings for the counter invariant. -/
inductive Op where
  | spawn : Computation → Op
  | pollFront : Op
  | wake : Nat → Op
  | stop : Op
deriving DecidableEq, Repr

/-- One operation step.  `pollFront` is one productive iteration of the run
loop (pop the queue head and poll it); `wake` is a wake-handle invocation
from any thread; `spawn` is `SimpleAsync::spawn` (it can panic, hence
`Option`); `stop` is `SimpleAsync::stop`. -/
def step (s : ExecState) : Op → Option ExecState
  | Op.spawn c => execSpawn s c
  | Op.pollFront =>
      match s.queue with
      | [] => some s
      | tid :: rest => some (taskPoll { s with queue := rest } tid)
  | Op.wake tid => some (wakerWake s tid)
  | Op.stop => some (execStop s)

/-- Run a list of operations from a state. -/
def runOps : List Op → ExecState → Option ExecState
  | [], s => some s
  | op :: ops, s =>
      match step s op with
      | some s1 => runOps ops s1
      | none => none

/-- Number of spawned-but-not-yet-completed tasks in the arena. -/
def liveCount (s : ExecState) : Nat :=
  s.tasks.countP (fun t => !t.completed)

/-- Every spawned task has completed. -/
def allCompleted (s : ExecState) : Prop :=
  ∀ t ∈ s.tasks, t.completed = true

instance (s : ExecState) : Decidable (allCompleted s) := by
  unfold allCompleted; infer_instance

/-- The delay future from `delay.rs`: deadline instant `when`, the optional
shared waker slot (the `Option<Arc<Mutex<Option<Waker>>>>`; the inner
option is always `Some` — both writes store `Some(..)` — so the slot is
flattened to the waker it holds), and the `completed` flag. -/
structure Delay where
  when : Nat
  waker : Option Waker
  completed : Bool
deriving DecidableEq, Repr

/-- The `Delay` value built by `delay(dur)`: deadline `Instant::now() + dur`,
no waker yet, not completed. -/
def delayInit (created dur : Nat) : Delay :=
  { when := created + dur, waker := none, completed := false }

/-- Result of one `Delay::poll`: the updated future, the `Poll` value, and
whether this call spawned the background timer thread. -/
structure DelayPollOut where
  delay : Delay
  res : PollRes
  spawnedThread : Bool
deriving DecidableEq, Repr

/-- `<Delay as Future>::poll(self, cx)` at wall-clock instant `now`.  If
`completed` is already set it panics (`none`).  If a waker slot exists it
replaces the stored waker when `will_wake` fails (identity inequality);
otherwise it stores `cx`'s waker and spawns the timer thread.  Finally,
whichever branch ran, it compares `now` with the deadline: at or past it
sets `completed` and returns `Ready`, otherwise `Pending`. -/
def delayPoll (d : Delay) (cxWaker : Waker) (now : Nat) : Option DelayPollOut :=
  if d.completed then
    none
  else
    let (d1, spawned) :=
      match d.waker with
      | some w =>
          (if w = cxWaker then d else { d with waker := some cxWaker }, false)
      | none =>
          ({ d with waker := some cxWaker }, true)
    if d1.when ≤ now then
      some { delay := { d1 with completed := true }, res := PollRes.Ready,
             spawnedThread := spawned }
    else
      some { delay := d1, res := PollRes.Pending, spawnedThread := spawned }

/-! Claim theorems. -/

/-- C1, counterexample: the claim says polling a task whose completion flag
is set must fail fast (abort/panic) and must not silently succeed.  On the
concrete state holding one completed task, `taskPoll` returns normally (the
embedding of `Task::poll` is a total function — the source's guard is a
plain early `return;`, not a panic) and leaves the state unchanged: the
call silently succeeds. -/
theorem task_poll_completed_counterexample :
    taskPoll { tasks := [{ future := Computation.done, completed := true }],
               queue := [], activeTasks := 1, consumerAlive := true,
               producersAlive := true, stopMsgs := 0 } 0
      = { tasks := [{ future := Computation.done, completed := true }],
          queue := [], activeTasks := 1, consumerAlive := true,
          producersAlive := true, stopMsgs := 0 } := by
  decide

/-- C1, amended: polling a task whose completion flag is already set is a
silent no-op — `Task::poll` returns immediately without panicking, without
polling the wrapped future, without touching the active counter (so no
double decrement) and without enqueueing anything. -/
theorem task_poll_completed_noop (s : ExecState) (tid : Nat) (t : Task)
    (hget : s.tasks.get? tid = some t) (hc : t.completed = true) :
    taskPoll s tid = s := by
  unfold taskPoll
  rw [hget]
  simp [hc]

/-- C1, witness for the amended theorem at a concrete completed task. -/
theorem task_poll_completed_noop_witness :
    taskPoll { tasks := [{ future := Computation.pend Computation.done,
                           completed := true }],
               queue := [0], activeTasks := 2, consumerAlive := true,
               producersAlive := true, stopMsgs := 0 } 0
      = { tasks := [{ future := Computation.pend Computation.done,
                      completed := true }],
          queue := [0], activeTasks := 2, consumerAlive := true,
          producersAlive := true, stopMsgs := 0 } :=
  task_poll_completed_noop
    { tasks := [{ future := Computation.pend Computation.done,
                  completed := true }],
      queue := [0], activeTasks := 2, consumerAlive := true,
      producersAlive := true, stopMsgs := 0 } 0
    { future := Computation.pend Computation.done, completed := true }
    (by decide) (by decide)

/-- C2, counterexample: the claim says a delay whose deadline has already
passed resolves on its first poll without ever spawning a timer thread.
For `delayInit 0 0` polled first at instant `0` the deadline has passed and
the poll does report Ready, but `spawnedThread` is `true`: the source
spawns the timer thread unconditionally on the first poll, before the
deadline check. -/
theorem delay_first_poll_counterexample :
    delayPoll (delayInit 0 0) 7 0 =
      some { delay := { when := 0, waker := some 7, completed := true },
             res := PollRes.Ready, spawnedThread := true } := by
  decide

/-- C2, amended: the first poll of a delay whose deadline has already
passed reports Ready, but it still spawns the background timer thread —
the spawn happens unconditionally on the first (unarmed) poll, before the
deadline check. -/
theorem delay_first_poll_ready (created dur w now : Nat)
    (h : created + dur ≤ now) :
    delayPoll (delayInit created dur) w now =
      some { delay := { when := created + dur, waker := some w,
                        completed := true },
             res := PollRes.Ready, spawnedThread := true } := by
  simp [delayPoll, delayInit, h]

/-- C2, witness for the amended theorem at deadline 3 and instant 5. -/
theorem delay_first_poll_ready_witness :
    delayPoll (delayInit 1 2) 4 5 =
      some { delay := { when := 3, waker := some 4, completed := true },
             res := PollRes.Ready, spawnedThread := true } :=
  delay_first_poll_ready 1 2 4 5 (by decide)

/-- C3, counterexample: the claim says `Task::spawn` never errors, even
when the queue producer's executor has already shut down.  With the queue
consumer dropped (`consumerAlive = false`), `sender.send(task).unwrap()`
panics: the embedding returns `none`. -/
theorem task_spawn_counterexample :
    taskSpawn Computation.done
      { tasks := [], queue := [], activeTasks := 1, consumerAlive := false,
        producersAlive := true, stopMsgs := 0 } = none := by
  decide

/-- C3, amended: while the queue consumer is alive, `Task::spawn` never
errors and its only side effect is appending the freshly allocated task
(flag clear) to the arena and enqueueing its id exactly once; if the
executor has shut down (consumer dropped), the `unwrap` on the failed send
panics instead. -/
theorem task_spawn_enqueues_once (c : Computation) (s : ExecState)
    (h : s.consumerAlive = true) :
    taskSpawn c s =
      some { s with tasks := s.tasks ++ [{ future := c, completed := false }],
                    queue := s.queue ++ [s.tasks.length] } := by
  unfold taskSpawn
  simp [h]

/-- C3, witness for the amended theorem on the initial executor state. -/
theorem task_spawn_enqueues_once_witness :
    taskSpawn Computation.done
      { ExecState.init with activeTasks := 1 } =
      some { tasks := [{ future := Computation.done, completed := false }],
             queue := [0], activeTasks := 1, consumerAlive := true,
             producersAlive := true, stopMsgs := 0 } :=
  task_spawn_enqueues_once Computation.done
    { ExecState.init with activeTasks := 1 } (by decide)

/-- C4: polling a not-yet-completed task.  If the wrapped future reports
Ready, the active counter is decremented and the completion flag set, and
the queue is untouched; if it reports Pending, the task id is re-enqueued
exactly once when the consumer is alive, and the failed send is silently
ignored (state otherwise unchanged) when the executor has shut down. -/
theorem task_poll_uncompleted (s : ExecState) (tid : Nat) (t : Task)
    (hget : s.tasks.get? tid = some t) (hc : t.completed = false) :
    (t.future = Computation.done →
       taskPoll s tid =
         { s with tasks := s.tasks.set tid { t with completed := true },
                  activeTasks := s.activeTasks - 1 }) ∧
    (∀ rest, t.future = Computation.pend rest →
       taskPoll s tid =
         if s.consumerAlive then
           { s with tasks := s.tasks.set tid { t with future := rest },
                    queue := s.queue ++ [tid] }
         else
           { s with tasks := s.tasks.set tid { t with future := rest } }) := by
  constructor
  · intro hf
    unfold taskPoll
    rw [hget]
    simp [hc, hf]
  · intro rest hf
    unfold taskPoll
    rw [hget]
    simp only [hc, hf, Bool.false_eq_true, if_false]

/-- C4, witness: both branches at concrete states (a Ready poll and a
Pending poll against a shut-down executor). -/
theorem task_poll_uncompleted_witness :
    taskPoll { tasks := [{ future := Computation.done, completed := false }],
               queue := [], activeTasks := 1, consumerAlive := true,
               producersAlive := true, stopMsgs := 0 } 0
      = { tasks := [{ future := Computation.done, completed := true }],
          queue := [], activeTasks := 0, consumerAlive := true,
          producersAlive := true, stopMsgs := 0 } :=
  ((task_poll_uncompleted
      { tasks := [{ future := Computation.done, completed := false }],
        queue := [], activeTasks := 1, consumerAlive := true,
        producersAlive := true, stopMsgs := 0 } 0
      { future := Computation.done, completed := false }
      (by decide) (by decide)).1 (by decide)).trans (by decide)

/-- C8: invoking a wake handle never fails and never inspects the task.
It re-enqueues the bound task id exactly once while the queue consumer is
alive — regardless of the task's completion flag, which `wakerWake` does
not read — and silently drops the send when the consumer is gone, leaving
the state unchanged. -/
theorem waker_wake_reenqueues (s : ExecState) (tid : Nat) :
    (wakerWake s tid).tasks = s.tasks ∧
    (wakerWake s tid).activeTasks = s.activeTasks ∧
    (s.consumerAlive = true →
       wakerWake s tid = { s with queue := s.queue ++ [tid] }) ∧
    (s.consumerAlive = false → wakerWake s tid = s) := by
  unfold wakerWake
  by_cases h : s.consumerAlive <;> simp [h]

/-- C8, witness: waking an already-completed task still re-enqueues it. -/
theorem waker_wake_reenqueues_witness :
    wakerWake { tasks := [{ future := Computation.done, completed := true }],
                queue := [], activeTasks := 0, consumerAlive := true,
                producersAlive := true, stopMsgs := 0 } 0
      = { tasks := [{ future := Computation.done, completed := true }],
          queue := [0], activeTasks := 0, consumerAlive := true,
          producersAlive := true, stopMsgs := 0 } :=
  ((waker_wake_reenqueues
      { tasks := [{ future := Computation.done, completed := true }],
        queue := [], activeTasks := 0, consumerAlive := true,
        producersAlive := true, stopMsgs := 0 } 0).2.2.1 (by decide)).trans
    (by decide)

/-- C9: polling a Delay whose completion flag is already set panics (the
source's explicit `panic!` on a resumed-after-completion future): the
embedding returns `none` rather than a result. -/
theorem delay_poll_completed_panics (d : Delay) (w now : Nat)
    (h : d.completed = true) :
    delayPoll d w now = none := by
  simp [delayPoll, h]

/-- C9, witness at a concrete completed delay. -/
theorem delay_poll_completed_panics_witness :
    delayPoll { when := 5, waker := some 3, completed := true } 7 9 = none :=
  delay_poll_completed_panics { when := 5, waker := some 3, completed := true }
    7 9 (by decide)

/-- C6: one poll of an uncompleted delay whose deadline is `created + dur`
(the creation instant plus the requested duration, as `delayInit` builds
it) reports Ready exactly when the current instant is at or past the
deadline, and Pending strictly before it — so `delay(d)` never resolves
before `d` has elapsed. -/
theorem delay_poll_ready_iff (d : Delay) (w now created dur : Nat)
    (hc : d.completed = false) (hwhen : d.when = created + dur) :
    Option.map DelayPollOut.res (delayPoll d w now) =
      some (if created + dur ≤ now then PollRes.Ready else PollRes.Pending) := by
  unfold delayPoll
  rw [hc]
  rcases hw : d.waker with _ | w0
  · rw [← hwhen]
    by_cases hle : d.when ≤ now <;> simp [hle]
  · rw [← hwhen]
    by_cases he : w0 = w <;> by_cases hle : d.when ≤ now <;> simp [he, hle]

/-- C6, witness: a fresh delay of duration 4 created at instant 10, polled
once at instant 13 (early: Pending per the if) and the theorem applied. -/
theorem delay_poll_ready_iff_witness :
    Option.map DelayPollOut.res (delayPoll (delayInit 10 4) 2 13) =
      some (if 10 + 4 ≤ 13 then PollRes.Ready else PollRes.Pending) :=
  delay_poll_ready_iff (delayInit 10 4) 2 13 10 4 (by decide) (by decide)

theorem execStop_iterate (n : Nat) (s : ExecState) :
    execStop^[n] s = { s with stopMsgs := s.stopMsgs + n } := by
  induction n with
  | zero => rfl
  | succ n ih =>
    rw [Function.iterate_succ_apply', ih]
    rcases s with ⟨tks, q, a, ca, pa, m⟩
    simp [execStop, Nat.add_assoc]

/-- C7: calling `stop()` any number `n ≥ 1` of times never fails and only
adds `n` messages to the stop channel; a `run()` started afterwards (any
positive fuel) observes the stop signal at its very first check and
returns through the stopped branch having performed zero task polls. -/
theorem stop_then_run_exits_immediately (s : ExecState) (n fuel : Nat)
    (hn : 0 < n) (hf : 0 < fuel) :
    execStop^[n] s = { s with stopMsgs := s.stopMsgs + n } ∧
    runLoop fuel (execStop^[n] s) =
      some (RunExit.stopped, { s with stopMsgs := s.stopMsgs + n - 1 }, 0) := by
  refine ⟨execStop_iterate n s, ?_⟩
  rw [execStop_iterate n s]
  cases fuel with
  | zero => exact absurd hf (by simp)
  | succ fuel =>
    unfold runLoop
    have hpos : ({ s with stopMsgs := s.stopMsgs + n } : ExecState).stopMsgs > 0 := by
      show 0 < s.stopMsgs + n
      omega
    rw [if_pos hpos]

/-- C7, witness: two stops before a one-fuel run on the fresh executor. -/
theorem stop_then_run_exits_immediately_witness :
    execStop^[2] ExecState.init =
      { ExecState.init with stopMsgs := ExecState.init.stopMsgs + 2 } ∧
    runLoop 1 (execStop^[2] ExecState.init) =
      some (RunExit.stopped,
            { ExecState.init with stopMsgs := ExecState.init.stopMsgs + 2 - 1 },
            0) :=
  stop_then_run_exits_immediately ExecState.init 2 1 (by decide) (by decide)

theorem taskPoll_producersAlive (s : ExecState) (tid : Nat) :
    (taskPoll s tid).producersAlive = s.producersAlive := by
  unfold taskPoll
  split
  · rfl
  · split
    · rfl
    · split
      · rfl
      · dsimp only
        split <;> rfl

/-- C10: while the executor that owns the run loop is alive it keeps a
producer handle to its own ready queue, so `try_recv` can never report
Disconnected: whenever `run` terminates from a state with a live producer,
it does so through the stopped branch, never the queue-disconnected one. -/
theorem run_exits_only_by_stop (fuel : Nat) (s : ExecState) (ex : RunExit)
    (s' : ExecState) (n : Nat) (hp : s.producersAlive = true)
    (h : runLoop fuel s = some (ex, s', n)) : ex = RunExit.stopped := by
  induction fuel generalizing s n with
  | zero => simp [runLoop] at h
  | succ fuel ih =>
    unfold runLoop at h
    by_cases hstop : s.stopMsgs > 0
    · rw [if_pos hstop] at h
      simp only [Option.some.injEq, Prod.mk.injEq] at h
      exact h.1.symm
    · rw [if_neg hstop] at h
      rcases hq : s.queue with _ | ⟨tid, rest⟩ <;> rw [hq] at h <;> dsimp only at h
      · rw [if_pos hp] at h
        exact ih s n hp h
      · cases hrec : runLoop fuel (taskPoll { s with queue := rest } tid) with
        | none => rw [hrec] at h; simp at h
        | some r =>
          obtain ⟨ex1, s1, n1⟩ := r
          rw [hrec] at h
          simp only [Option.map_some', Option.some.injEq, Prod.mk.injEq] at h
          obtain ⟨rfl, rfl, rfl⟩ := h
          exact ih (taskPoll { s with queue := rest } tid) n1
            (by rw [taskPoll_producersAlive]; exact hp) hrec

/-- C10, witness: the theorem applied to a one-iteration run of a stopped
fresh executor. -/
theorem run_exits_only_by_stop_witness :
    (execStop ExecState.init).producersAlive = true ∧
    RunExit.stopped = RunExit.stopped :=
  ⟨by decide,
   run_exits_only_by_stop 1 (execStop ExecState.init) RunExit.stopped
     ExecState.init 0 (by decide) (by decide)⟩

theorem liveCount_taskPoll (s : ExecState) (tid : Nat)
    (h : s.activeTasks = liveCount s) :
    (taskPoll s tid).activeTasks = liveCount (taskPoll s tid) := by
  unfold taskPoll
  cases hget : s.tasks.get? tid with
  | none => exact h
  | some t =>
    dsimp only
    rw [List.get?_eq_getElem?] at hget
    obtain ⟨hlt, helem⟩ := List.getElem?_eq_some_iff.mp hget
    by_cases hc : t.completed = true
    · rw [if_pos hc]
      exact h
    · rw [if_neg hc]
      have hct : (!t.completed) = true := by
        simp [Bool.not_eq_true] at hc
        simp [hc]
      cases hf : t.future with
      | done =>
        dsimp only
        unfold liveCount at h ⊢
        dsimp only
        rw [List.countP_set _ _ _ _ hlt, helem, hct]
        simp [h]
      | pend rest =>
        dsimp only
        have hone : 1 ≤ s.tasks.countP (fun t => !t.completed) := by
          have hb := List.boole_getElem_le_countP (fun t => !t.completed)
            s.tasks tid hlt
          rw [helem, hct] at hb
          simpa using hb
        by_cases hca : s.consumerAlive = true
        · rw [if_pos hca]
          unfold liveCount at h ⊢
          dsimp only
          rw [List.countP_set _ _ _ _ hlt, helem, hct]
          simp only [Bool.not_false, if_true]
          omega
        · rw [if_neg hca]
          unfold liveCount at h ⊢
          dsimp only
          rw [List.countP_set _ _ _ _ hlt, helem, hct]
          simp only [Bool.not_false, if_true]
          omega

theorem liveCount_step (s s' : ExecState) (op : Op)
    (h : s.activeTasks = liveCount s) (hs : step s op = some s') :
    s'.activeTasks = liveCount s' := by
  cases op with
  | spawn c =>
    unfold step execSpawn taskSpawn at hs
    dsimp only at hs
    by_cases hca : s.consumerAlive = true
    · rw [if_pos hca] at hs
      obtain rfl := Option.some.inj hs
      unfold liveCount at h ⊢
      dsimp only
      rw [List.countP_append]
      simp [h]
    · rw [if_neg hca] at hs
      cases hs
  | pollFront =>
    unfold step at hs
    rcases hq : s.queue with _ | ⟨tid, rest⟩ <;> rw [hq] at hs <;>
      dsimp only at hs
    · obtain rfl := Option.some.inj hs
      exact h
    · obtain rfl := Option.some.inj hs
      exact liveCount_taskPoll { s with queue := rest } tid h
  | wake tid =>
    unfold step wakerWake at hs
    dsimp only at hs
    by_cases hca : s.consumerAlive = true
    · rw [if_pos hca] at hs
      obtain rfl := Option.some.inj hs
      exact h
    · rw [if_neg hca] at hs
      obtain rfl := Option.some.inj hs
      exact h
  | stop =>
    unfold step execStop at hs
    dsimp only at hs
    obtain rfl := Option.some.inj hs
    exact h

theorem liveCount_runOps (ops : List Op) (s0 s : ExecState)
    (h0 : s0.activeTasks = liveCount s0) (h : runOps ops s0 = some s) :
    s.activeTasks = liveCount s := by
  induction ops generalizing s0 with
  | nil =>
    unfold runOps at h
    obtain rfl := Option.some.inj h
    exact h0
  | cons op ops ih =>
    unfold runOps at h
    cases hstep : step s0 op with
    | none => rw [hstep] at h; cases h
    | some s1 =>
      rw [hstep] at h
      exact ih s1 (liveCount_step s0 s1 op h0 hstep) h

/-- C5: along every sequence of executor operations from the fresh state
(spawns through `SimpleAsync::spawn`, run-loop polls, wake invocations,
stops), the active-task counter equals the number of spawned tasks whose
completion flag is still clear — it is incremented once per spawn and
decremented exactly at a task's Ready transition — and therefore equals 0
once every spawned task has completed. -/
theorem active_counter_invariant (ops : List Op) (s : ExecState)
    (h : runOps ops ExecState.init = some s) :
    s.activeTasks = liveCount s ∧ (allCompleted s → s.activeTasks = 0) := by
  have hinv := liveCount_runOps ops ExecState.init s rfl h
  refine ⟨hinv, fun hall => ?_⟩
  rw [hinv]
  unfold liveCount
  rw [List.countP_eq_zero]
  intro t ht
  simp [hall t ht]

/-- C5, witness: spawn one immediately-ready task and let the run loop
poll it; the counter is back to 0 and the invariant holds. -/
theorem active_counter_invariant_witness :
    runOps [Op.spawn Computation.done, Op.pollFront] ExecState.init =
      some { tasks := [{ future := Computation.done, completed := true }],
             queue := [], activeTasks := 0, consumerAlive := true,
             producersAlive := true, stopMsgs := 0 } ∧
    (({ tasks := [{ future := Computation.done, completed := true }],
        queue := [], activeTasks := 0, consumerAlive := true,
        producersAlive := true, stopMsgs := 0 } : ExecState).activeTasks =
      liveCount { tasks := [{ future := Computation.done, completed := true }],
                  queue := [], activeTasks := 0, consumerAlive := true,
                  producersAlive := true, stopMsgs := 0 } ∧
     (allCompleted { tasks := [{ future := Computation.done,
                                 completed := true }],
                     queue := [], activeTasks := 0, consumerAlive := true,
                     producersAlive := true, stopMsgs := 0 } →
      ({ tasks := [{ future := Computation.done, completed := true }],
         queue := [], activeTasks := 0, consumerAlive := true,
         producersAlive := true, stopMsgs := 0 } : ExecState).activeTasks
        = 0)) :=
  ⟨by decide,
   active_counter_invariant [Op.spawn Computation.done, Op.pollFront]
     { tasks := [{ future := Computation.done, completed := true }],
       queue := [], activeTasks := 0, consumerAlive := true,
       producersAlive := true, stopMsgs := 0 } (by decide)⟩

end Suika
